import Mathlib

set_option linter.unusedVariables false

/-!
Shallow embedding of the llm-spam-filter repository (Go) used to verify the
claims of its natural-language specification.

Modelling conventions:
- Go float64/float32 score values are modelled as exact rationals (Rat); the
  float32 narrowing in the memory cache and the decimal formatting of header
  values are treated as exact (header values carry the rational itself).
- time.Time is modelled as Int (seconds since epoch); time.Duration as Int
  seconds.  Wall-clock reads (time.Now) are passed in explicitly.
- Go errors are modelled with Option / Except.
- Go maps are modelled as association lists; where Go iterates a map (whose
  order is unspecified) the association-list order is used.
- Raw message bytes are modelled at line granularity (List String) with the
  CRLF/LF distinction abstracted away.
- Go standard-library string helpers (strings.Split, ToLower, Contains,
  TrimSpace, ...) are re-implemented below by structural recursion over the
  character list of the string, so that every definition evaluates inside
  the kernel; ASCII case folding stands in for Unicode folding.
- External collaborators (LLM client, SMTP peer, RFC 2047 word decoder) are
  passed in as function parameters, as the corresponding Go interfaces are.
-/

/-! ## Go string helpers -/

/-- strings.ToLower (ASCII folding). -/
def lowerS (s : String) : String := ⟨s.data.map Char.toLower⟩

/-- strings.EqualFold: case-insensitive equality under ASCII folding. -/
def equalFold (a b : String) : Bool := lowerS a == lowerS b

/-- strings.Split with a one-character separator, on character lists. -/
def splitOnCharList (c : Char) : List Char → List (List Char)
  | [] => [[]]
  | ch :: rest =>
    match splitOnCharList c rest with
    | [] => [[]]
    | h :: t => if ch == c then [] :: h :: t else (ch :: h) :: t

/-- strings.Split with a one-character separator. -/
def splitOnChar (c : Char) (s : String) : List String :=
  (splitOnCharList c s.data).map (fun l => ⟨l⟩)

/-- Helper for containsSub: is pat a contiguous sublist of l (pat nonempty)? -/
def isSubLList : List Char → List Char → Bool
  | _, [] => false
  | pat, l@(_ :: rest) => pat.isPrefixOf l || isSubLList pat rest

/-- strings.Contains. -/
def containsSub (s pat : String) : Bool :=
  pat.data.isEmpty || isSubLList pat.data s.data

/-- strings.HasPrefix. -/
def hasPrefixS (s pat : String) : Bool := pat.data.isPrefixOf s.data

/-- Is c an ASCII whitespace character (space, TAB, CR, LF)? -/
def isSpaceC (c : Char) : Bool := c == ' ' || c == '\t' || c == '\r' || c == '\n'

/-- strings.TrimSpace (ASCII whitespace). -/
def trimS (s : String) : String :=
  ⟨((s.data.dropWhile isSpaceC).reverse.dropWhile isSpaceC).reverse⟩

/-- strings.TrimLeft for whitespace (used for header values). -/
def trimLeftS (s : String) : String := ⟨s.data.dropWhile isSpaceC⟩

/-- Concatenation of a list of strings with a separator (strings.Join). -/
def joinWith (sep : String) (ls : List String) : String :=
  match ls with
  | [] => ""
  | [l] => l
  | l :: rest => l ++ sep ++ joinWith sep rest

/-- Rejoin the line-granular model of a byte sequence into one string; LF is
used for the abstracted line terminator. -/
def joinLines (ls : List String) : String := joinWith "\n" ls

theorem charToLowerIdem (c : Char) : c.toLower.toLower = c.toLower := by
  unfold Char.toLower
  by_cases h : c.toNat ≥ 65 ∧ c.toNat ≤ 90
  · have hv : (c.toNat + 32).isValidChar := Or.inl (by omega)
    have hval : (Char.ofNat (c.toNat + 32)).toNat = c.toNat + 32 := by
      simp only [Char.ofNat, hv, dif_pos, Char.ofNatAux, Char.toNat]
      split
      · rfl
      · exact absurd hv (by assumption)
    simp only [h, and_self, if_true, if_pos]
    rw [if_neg]
    rw [hval]
    omega
  · simp only [h, if_false, if_neg]

theorem lowerS_idem (s : String) : lowerS (lowerS s) = lowerS s := by
  have hcomp : Char.toLower ∘ Char.toLower = Char.toLower := funext charToLowerIdem
  simp [lowerS, List.map_map, hcomp]

theorem equalFold_lowerS_left (a b : String) : equalFold (lowerS a) b = equalFold a b := by
  simp [equalFold, lowerS_idem]

/-! ## Core data model (internal/core/model.go) -/

namespace core

/-- Email (internal/core/model.go). -/
structure Email where
  From : String
  To : List String
  Subject : String
  Body : String
  Headers : List (String × List String)
deriving DecidableEq

/-- SpamAnalysisResult (internal/core/model.go). -/
structure SpamAnalysisResult where
  IsSpam : Bool
  Score : Rat
  Confidence : Rat
  Explanation : String
  AnalyzedAt : Int
  ModelUsed : String
  ProcessingID : String
deriving DecidableEq

/-- CacheEntry (internal/core/model.go; the part_004 variant narrows Score to
float32, modelled here as the same exact rational). -/
structure CacheEntry where
  SenderEmail : String
  IsSpam : Bool
  Score : Rat
  LastSeen : Int
  ExpiresAt : Int
deriving DecidableEq

/-- Configuration part of SpamFilterService (internal/core/service.go); the
llmClient and cache collaborators are passed to AnalyzeEmail as functions. -/
structure SpamFilterService where
  cacheEnabled : Bool
  cacheTTL : Int
  threshold : Rat
  whitelistedDomains : List String

/-- internal/core/service.go, isDomainWhitelisted (lines 44-61). -/
def SpamFilterService.isDomainWhitelisted (s : SpamFilterService) (email : String) : Bool :=
  match splitOnChar '@' email with
  | [_, d] =>
    let domain := lowerS d
    s.whitelistedDomains.any (fun w => equalFold domain w)
  | _ => false

/-- The value returned by AnalyzeEmail together with the side effects it
performed on its collaborators (cache read, LLM call, cache write). -/
structure AnalyzeOutcome where
  result : Option SpamAnalysisResult
  cacheRead : Bool
  llmCalled : Bool
  cacheWrite : Option CacheEntry
deriving DecidableEq

/-- internal/core/service.go, SpamFilterService.AnalyzeEmail (lines 64-118).
`cacheGet from = none` models any cache error (not-found, expired, backend
failure): the code treats every non-nil error as a miss.  `llm email = none`
models a classifier error, which is propagated (`result := none`).  Note that
this variant returns the successful classifier result unchanged. -/
def SpamFilterService.AnalyzeEmail (s : SpamFilterService)
    (cacheGet : String → Option CacheEntry)
    (llm : Email → Option SpamAnalysisResult)
    (now : Int) (email : Email) : AnalyzeOutcome :=
  if s.isDomainWhitelisted email.From then
    { result := some { IsSpam := false, Score := 0, Confidence := 1,
                       Explanation := "Sender domain is whitelisted", AnalyzedAt := now,
                       ModelUsed := "whitelist", ProcessingID := "" },
      cacheRead := false, llmCalled := false, cacheWrite := none }
  else
    match (if s.cacheEnabled then cacheGet email.From else none) with
    | some entry =>
      { result := some { IsSpam := entry.IsSpam, Score := entry.Score, Confidence := 1,
                         Explanation := "Result from cache", AnalyzedAt := now,
                         ModelUsed := "cache", ProcessingID := "" },
        cacheRead := true, llmCalled := false, cacheWrite := none }
    | none =>
      match llm email with
      | none =>
        { result := none, cacheRead := s.cacheEnabled, llmCalled := true,
          cacheWrite := none }
      | some result =>
        { result := some result,
          cacheRead := s.cacheEnabled,
          llmCalled := true,
          cacheWrite := if s.cacheEnabled then
                          some { SenderEmail := email.From, IsSpam := result.IsSpam,
                                 Score := result.Score, LastSeen := now,
                                 ExpiresAt := now + s.cacheTTL }
                        else none }

/-- internal/core/service.go, SpamFilterService.IsSpam (lines 121-123): the
separate threshold helper applied by some callers. -/
def SpamFilterService.IsSpam (s : SpamFilterService) (result : SpamAnalysisResult) : Bool :=
  decide (result.Score ≥ s.threshold)

end core

/-! ## The src/unnamed/part_006 variant of the service -/

namespace part006

/-- Modelled from the spec: the internal/whitelist Checker used by the
src/unnamed/part_006 variant of the service is not under src/ (only this
caller is).  Per spec §4.1 it extracts the domain as the substring after the
single "@" and compares it case-insensitively against the configured
domains; addresses with zero or several "@" are never whitelisted. -/
def isWhitelisted (domains : List String) (address : String) : Bool :=
  match splitOnChar '@' address with
  | [_, d] => domains.any (fun w => equalFold d w)
  | _ => false

/-- Configuration part of the src/unnamed/part_006 SpamFilterService. -/
structure SpamFilterService where
  cacheEnabled : Bool
  cacheTTL : Int
  spamThreshold : Rat
  whitelistedDomains : List String

/-- Outcome of the part_006 AnalyzeEmail; its cache stores
(key, result, ttl) triples rather than CacheEntry records. -/
structure AnalyzeOutcome where
  result : Option core.SpamAnalysisResult
  cacheRead : Bool
  llmCalled : Bool
  cacheWrite : Option (String × core.SpamAnalysisResult × Int)
deriving DecidableEq

/-- src/unnamed/part_006, SpamFilterService.AnalyzeEmail (lines 44-90): this
variant overwrites IsSpam with the threshold decision before caching and
returning.  The cacheRepo is modelled as always present (the DI container
never passes nil). -/
def SpamFilterService.AnalyzeEmail (s : SpamFilterService)
    (cacheGet : String → Option core.SpamAnalysisResult)
    (llm : core.Email → Option core.SpamAnalysisResult)
    (now : Int) (email : core.Email) : AnalyzeOutcome :=
  if isWhitelisted s.whitelistedDomains email.From then
    { result := some { IsSpam := false, Score := 0, Confidence := 1,
                       Explanation := "Sender domain is whitelisted", AnalyzedAt := now,
                       ModelUsed := "whitelist", ProcessingID := "" },
      cacheRead := false, llmCalled := false, cacheWrite := none }
  else
    match (if s.cacheEnabled then cacheGet email.From else none) with
    | some result =>
      { result := some result, cacheRead := true, llmCalled := false,
        cacheWrite := none }
    | none =>
      match llm email with
      | none =>
        { result := none, cacheRead := s.cacheEnabled, llmCalled := true,
          cacheWrite := none }
      | some result0 =>
        let result := { result0 with IsSpam := decide (result0.Score ≥ s.spamThreshold) }
        { result := some result,
          cacheRead := s.cacheEnabled,
          llmCalled := true,
          cacheWrite := if s.cacheEnabled then some (email.From, result, s.cacheTTL)
                        else none }

end part006

/-! ## Shared concrete fixtures for witnesses and counterexamples -/

/-- A concrete, non-whitelisted email. -/
def e0 : core.Email :=
  { From := "bar@unknown.com", To := ["rcpt@dest.com"], Subject := "subj",
    Body := "body", Headers := [] }

/-- A concrete classifier result whose score sits exactly on a 0.7 threshold
while its own IsSpam flag is false. -/
def rEq : core.SpamAnalysisResult :=
  { IsSpam := false, Score := mkRat 7 10, Confidence := mkRat 1 2, Explanation := "llm verdict",
    AnalyzedAt := 0, ModelUsed := "bedrock", ProcessingID := "p1" }

/-- A concrete classifier result with a high score but IsSpam = false. -/
def rBad : core.SpamAnalysisResult :=
  { IsSpam := false, Score := mkRat 9 10, Confidence := 1, Explanation := "llm verdict",
    AnalyzedAt := 0, ModelUsed := "bedrock", ProcessingID := "" }

/-- A concrete service.go-variant service, threshold 0.7, cache off. -/
def sGo : core.SpamFilterService :=
  { cacheEnabled := false, cacheTTL := 60, threshold := mkRat 7 10,
    whitelistedDomains := ["example.com"] }

/-- A concrete part_006-variant service, threshold 0.7, cache off. -/
def s006 : part006.SpamFilterService :=
  { cacheEnabled := false, cacheTTL := 60, spamThreshold := mkRat 7 10,
    whitelistedDomains := ["example.com"] }

/-! ## Claim C1 -/

/-- Claim C1 (amended): in the src/unnamed/part_006 variant, for an email
whose sender is not whitelisted, on a cache miss, when the classifier call
succeeds AnalyzeEmail returns the classifier result with IsSpam overwritten
to (Score >= threshold); a score exactly equal to the threshold yields
IsSpam = true.  (In the internal/core/service.go variant the classifier
result is returned unchanged; see the counterexample.) -/
theorem C1_part006_AnalyzeEmail_applies_threshold (s : part006.SpamFilterService)
    (cacheGet : String → Option core.SpamAnalysisResult)
    (llm : core.Email → Option core.SpamAnalysisResult)
    (now : Int) (email : core.Email) (r : core.SpamAnalysisResult)
    (hw : part006.isWhitelisted s.whitelistedDomains email.From = false)
    (hc : (if s.cacheEnabled then cacheGet email.From else none) = none)
    (hl : llm email = some r) :
    (part006.SpamFilterService.AnalyzeEmail s cacheGet llm now email).result =
      some { r with IsSpam := decide (r.Score ≥ s.spamThreshold) } ∧
    (r.Score = s.spamThreshold →
      (part006.SpamFilterService.AnalyzeEmail s cacheGet llm now email).result =
        some { r with IsSpam := true }) := by
  constructor
  · simp [part006.SpamFilterService.AnalyzeEmail, hw, hc, hl]
  · intro hEq
    simp [part006.SpamFilterService.AnalyzeEmail, hw, hc, hl, hEq]

/-- Witness for claim C1: with threshold 0.7 and a classifier score of
exactly 0.7, the part_006 AnalyzeEmail reports IsSpam = true. -/
theorem C1_witness :
    (part006.SpamFilterService.AnalyzeEmail s006 (fun _ => none) (fun _ => some rEq) 0 e0).result =
      some { rEq with IsSpam := true } :=
  (C1_part006_AnalyzeEmail_applies_threshold s006 (fun _ => none) (fun _ => some rEq) 0 e0 rEq
    (by decide) (by decide) rfl).2 (by decide)

/-- Counterexample for claim C1 as stated: the internal/core/service.go
AnalyzeEmail returns the classifier result unchanged, so with threshold 0.7
a successful classification with Score = 0.9 and classifier flag
IsSpam = false comes back with IsSpam = false, although Score >= threshold. -/
theorem C1_counterexample :
    (core.SpamFilterService.AnalyzeEmail sGo (fun _ => none) (fun _ => some rBad) 0 e0).result =
      some rBad ∧
    rBad.IsSpam = false ∧
    decide (rBad.Score ≥ sGo.threshold) = true := by
  refine ⟨?_, rfl, by decide⟩
  decide

/-! ## Claim C4 -/

/-- Claim C4: for every email whose sender's domain (the substring after the
single "@", compared case-insensitively) is in the configured whitelist,
the service.go AnalyzeEmail returns exactly the whitelist result
{IsSpam := false, Score := 0, Confidence := 1, ModelUsed := "whitelist"}
regardless of subject, body or any other field, and performs no cache read,
no cache write and no classifier call. -/
theorem C4_whitelisted_short_circuit (s : core.SpamFilterService)
    (cacheGet : String → Option core.CacheEntry)
    (llm : core.Email → Option core.SpamAnalysisResult)
    (now : Int) (email : core.Email) (l d w : String)
    (hsplit : splitOnChar '@' email.From = [l, d])
    (hw : w ∈ s.whitelistedDomains)
    (hfold : equalFold d w = true) :
    core.SpamFilterService.AnalyzeEmail s cacheGet llm now email =
      { result := some { IsSpam := false, Score := 0, Confidence := 1,
                         Explanation := "Sender domain is whitelisted", AnalyzedAt := now,
                         ModelUsed := "whitelist", ProcessingID := "" },
        cacheRead := false, llmCalled := false, cacheWrite := none } := by
  have hwl : s.isDomainWhitelisted email.From = true := by
    unfold core.SpamFilterService.isDomainWhitelisted
    rw [hsplit]
    simp only [List.any_eq_true]
    exact ⟨w, hw, by rw [equalFold_lowerS_left]; exact hfold⟩
  simp [core.SpamFilterService.AnalyzeEmail, hwl]

/-- Witness for claim C4: a concrete whitelisted sender (mixed-case domain)
short-circuits to the whitelist result with no collaborator interaction. -/
theorem C4_witness :
    core.SpamFilterService.AnalyzeEmail sGo (fun _ => none) (fun _ => some rBad) 5
      { e0 with From := "foo@Example.COM" } =
      { result := some { IsSpam := false, Score := 0, Confidence := 1,
                         Explanation := "Sender domain is whitelisted", AnalyzedAt := 5,
                         ModelUsed := "whitelist", ProcessingID := "" },
        cacheRead := false, llmCalled := false, cacheWrite := none } :=
  C4_whitelisted_short_circuit sGo (fun _ => none) (fun _ => some rBad) 5
    { e0 with From := "foo@Example.COM" } "foo" "Example.COM" "example.com"
    (by decide) (by decide) (by decide)

/-! ## Cache backends (internal/adapters/cache) -/

namespace cache

/-- Cache storage: the Go map (memory backend) and the single-table keyed
rows (sqlite backend) are both modelled as association lists keyed by
sender address. -/
abbrev CacheState := List (String × core.CacheEntry)

/-- Map/row lookup by key. -/
def lookup (m : CacheState) (k : String) : Option core.CacheEntry :=
  match m with
  | [] => none
  | (k2, e) :: rest => if k2 == k then some e else lookup rest k

/-- Map assignment / INSERT OR REPLACE by key. -/
def insert (m : CacheState) (k : String) (e : core.CacheEntry) : CacheState :=
  match m with
  | [] => [(k, e)]
  | (k2, e2) :: rest => if k2 == k then (k, e) :: rest else (k2, e2) :: insert rest k e

theorem lookup_insert (m : CacheState) (k : String) (e : core.CacheEntry) :
    lookup (insert m k e) k = some e := by
  induction m with
  | nil => simp [insert, lookup]
  | cons p rest ih =>
    obtain ⟨k2, e2⟩ := p
    by_cases h : (k2 == k) = true
    · simp [insert, lookup, h]
    · simp only [insert, lookup, h, if_false, Bool.false_eq_true, ite_false]
      exact ih

end cache

namespace MemoryCache

/-- internal/adapters/cache/memory_cache.go, MemoryCache.Get (lines 45-67):
an entry is expired iff time.Now().After(ExpiresAt), i.e. strictly after;
an expired or missing entry yields (nil, false), modelled as none.  The Go
float64 -> float32 -> float64 round trip of Score is modelled as exact. -/
def Get (now : Int) (m : cache.CacheState) (senderEmail : String) :
    Option core.SpamAnalysisResult :=
  match cache.lookup m senderEmail with
  | none => none
  | some entry =>
    if now > entry.ExpiresAt then none
    else some { IsSpam := entry.IsSpam, Score := entry.Score, Confidence := 0,
                Explanation := "", AnalyzedAt := entry.LastSeen, ModelUsed := "",
                ProcessingID := "" }

/-- internal/adapters/cache/memory_cache.go, MemoryCache.Set (lines 70-84):
stores an entry expiring at now + ttl. -/
def Set (now : Int) (m : cache.CacheState) (key : String)
    (result : core.SpamAnalysisResult) (ttl : Int) : cache.CacheState :=
  cache.insert m key
    { SenderEmail := key, IsSpam := result.IsSpam, Score := result.Score,
      LastSeen := result.AnalyzedAt, ExpiresAt := now + ttl }

/-- internal/adapters/cache/memory_cache.go, MemoryCache.Cleanup (lines
96-112): deletes entries with now.After(ExpiresAt) (strict) while counting
them; the count is logged, the Go function returns only nil. -/
def Cleanup (now : Int) : cache.CacheState → cache.CacheState × Nat
  | [] => ([], 0)
  | (k, e) :: rest =>
    let (m2, c) := Cleanup now rest
    if now > e.ExpiresAt then (m2, c + 1) else ((k, e) :: m2, c)

end MemoryCache

namespace SQLiteCache

/-- internal/adapters/cache/sqlite_cache.go, SQLiteCache.Get (lines 67-96):
SELECT ... WHERE sender_email = ? AND expires_at > datetime('now'); both a
missing row and an expired row yield ErrNotFound, modelled as none.  The
RFC 3339 round trip of the timestamps is the identity at the modelled
second granularity. -/
def Get (now : Int) (m : cache.CacheState) (senderEmail : String) :
    Option core.CacheEntry :=
  match cache.lookup m senderEmail with
  | some e => if e.ExpiresAt > now then some e else none
  | none => none

/-- internal/adapters/cache/sqlite_cache.go, SQLiteCache.Set (lines 99-110):
INSERT OR REPLACE keyed by sender_email. -/
def Set (m : cache.CacheState) (entry : core.CacheEntry) : cache.CacheState :=
  cache.insert m entry.SenderEmail entry

/-- internal/adapters/cache/sqlite_cache.go, SQLiteCache.Cleanup (lines
127-145): DELETE ... WHERE expires_at <= datetime('now'); rowsAffected is
logged, the Go function returns only nil. -/
def Cleanup (now : Int) : cache.CacheState → cache.CacheState × Nat
  | [] => ([], 0)
  | (k, e) :: rest =>
    let (m2, c) := Cleanup now rest
    if e.ExpiresAt ≤ now then (m2, c + 1) else ((k, e) :: m2, c)

end SQLiteCache

/-! ## Claim C8 -/

/-- Claim C8 (amended): Set followed immediately by Get for the same sender
returns the stored decision (same IsSpam and Score) while the entry is
live, and not-found once it is dead - but the expiry boundary differs per
backend: the memory cache still returns the entry at the instant
ExpiresAt = now (its expiry test now.After(ExpiresAt) is strict) and
reports not-found only strictly after, while the sqlite cache
(expires_at > now) returns not-found at and after the expiry instant. -/
theorem C8_set_then_get (m : cache.CacheState) (k : String)
    (r : core.SpamAnalysisResult) (entry : core.CacheEntry) (t0 ttl t : Int) :
    (t ≤ t0 + ttl →
      MemoryCache.Get t (MemoryCache.Set t0 m k r ttl) k =
        some { IsSpam := r.IsSpam, Score := r.Score, Confidence := 0,
               Explanation := "", AnalyzedAt := r.AnalyzedAt, ModelUsed := "",
               ProcessingID := "" }) ∧
    (t0 + ttl < t → MemoryCache.Get t (MemoryCache.Set t0 m k r ttl) k = none) ∧
    (t < entry.ExpiresAt →
      SQLiteCache.Get t (SQLiteCache.Set m entry) entry.SenderEmail = some entry) ∧
    (entry.ExpiresAt ≤ t →
      SQLiteCache.Get t (SQLiteCache.Set m entry) entry.SenderEmail = none) := by
  refine ⟨?_, ?_, ?_, ?_⟩ <;> intro h
  · simp [MemoryCache.Get, MemoryCache.Set, cache.lookup_insert, not_lt.mpr h]
  · simp [MemoryCache.Get, MemoryCache.Set, cache.lookup_insert, h]
  · simp [SQLiteCache.Get, SQLiteCache.Set, cache.lookup_insert, h]
  · simp [SQLiteCache.Get, SQLiteCache.Set, cache.lookup_insert, not_lt.mpr h]

/-- A concrete entry expiring at time 100, for the cache claims. -/
def eAt100 : core.CacheEntry :=
  { SenderEmail := "c@d.com", IsSpam := true, Score := mkRat 1 2,
    LastSeen := 0, ExpiresAt := 100 }

/-- Witness for claim C8 at concrete times around the expiry instants. -/
theorem C8_witness :
    (MemoryCache.Get 50 (MemoryCache.Set 0 [] "a@b.com" rBad 100) "a@b.com" =
      some { IsSpam := rBad.IsSpam, Score := rBad.Score, Confidence := 0,
             Explanation := "", AnalyzedAt := rBad.AnalyzedAt, ModelUsed := "",
             ProcessingID := "" }) ∧
    (MemoryCache.Get 150 (MemoryCache.Set 0 [] "a@b.com" rBad 100) "a@b.com" = none) ∧
    (SQLiteCache.Get 50 (SQLiteCache.Set [] eAt100) "c@d.com" = some eAt100) ∧
    (SQLiteCache.Get 100 (SQLiteCache.Set [] eAt100) "c@d.com" = none) :=
  ⟨(C8_set_then_get [] "a@b.com" rBad eAt100 0 100 50).1 (by decide),
   (C8_set_then_get [] "a@b.com" rBad eAt100 0 100 150).2.1 (by decide),
   (C8_set_then_get [] "a@b.com" rBad eAt100 0 100 50).2.2.1 (by decide),
   (C8_set_then_get [] "a@b.com" rBad eAt100 0 100 100).2.2.2 (by decide)⟩

/-- Counterexample for claim C8 as stated: at a time exactly equal to the
expiry (Set at 0 with ttl 100, Get at 100) the memory cache still returns
the stored decision, whereas the claim requires not-found at or after the
expiry. -/
theorem C8_counterexample :
    (MemoryCache.Get 100 (MemoryCache.Set 0 [] "a@b.com" rBad 100) "a@b.com").isSome = true := by
  decide

/-! ## Claim C9 -/

/-- Claim C9 (amended): Cleanup removes exactly the dead entries and counts
the removals, but the expiry boundary again differs per backend: the sqlite
backend deletes exactly the entries with ExpiresAt <= now, while the memory
backend deletes exactly those with ExpiresAt < now, so an entry expiring at
the sweep instant itself survives a memory-cache sweep; both backends only
log (rather than return) the removal count. -/
theorem C9_cleanup_removes_expired (now : Int) (m : cache.CacheState) :
    (MemoryCache.Cleanup now m).1 =
      m.filter (fun p => !(decide (now > p.2.ExpiresAt))) ∧
    (MemoryCache.Cleanup now m).2 =
      m.countP (fun p => decide (now > p.2.ExpiresAt)) ∧
    (SQLiteCache.Cleanup now m).1 =
      m.filter (fun p => !(decide (p.2.ExpiresAt ≤ now))) ∧
    (SQLiteCache.Cleanup now m).2 =
      m.countP (fun p => decide (p.2.ExpiresAt ≤ now)) := by
  induction m with
  | nil =>
    simp [MemoryCache.Cleanup, SQLiteCache.Cleanup]
  | cons p rest ih =>
    obtain ⟨k, e⟩ := p
    obtain ⟨ih1, ih2, ih3, ih4⟩ := ih
    by_cases h1 : now > e.ExpiresAt <;> by_cases h2 : e.ExpiresAt ≤ now <;>
      simp [MemoryCache.Cleanup, SQLiteCache.Cleanup, h1, h2, ih1, ih2, ih3, ih4,
            List.countP_cons]

/-- Counterexample for claim C9 as stated: an entry whose ExpiresAt equals
now is not removed by the memory cache's Cleanup (count 0), although the
claim requires entries with ExpiresAt <= now (equality included) to be
removed; the sqlite backend does remove it. -/
theorem C9_counterexample :
    MemoryCache.Cleanup 100 [("c@d.com", eAt100)] = ([("c@d.com", eAt100)], 0) ∧
    SQLiteCache.Cleanup 100 [("c@d.com", eAt100)] = ([], 1) := by
  decide

/-! ## MIME utilities (internal/adapters/filter/mime_utils.go) -/

namespace filter

/-- A parsed MIME part: its header lines (in order) and its content lines.
Part header lookup is case-insensitive on the first matching line, matching
textproto.MIMEHeader.Get. -/
structure RawPart where
  headers : List (String × String)
  content : List String
deriving DecidableEq

/-- net/mail.Message restricted to what the code uses: the header map
(grouped, in first-occurrence order) and the raw body, at line granularity. -/
structure MailMessage where
  Header : List (String × List String)
  Body : List String
deriving DecidableEq

/-- mail.Header.Get: first value of the (canonicalized, here case-insensitive)
key, or "" if absent. -/
def headerGet (hs : List (String × List String)) (name : String) : String :=
  match hs.find? (fun p => equalFold p.1 name) with
  | some (_, v :: _) => v
  | _ => ""

/-- textproto.MIMEHeader.Get over the per-line part headers. -/
def partHeaderGet (hs : List (String × String)) (name : String) : String :=
  match hs.find? (fun p => equalFold p.1 name) with
  | some (_, v) => v
  | none => ""

/-- Strip one layer of surrounding double quotes (parameter values). -/
def unquoteS (s : String) : String :=
  match s.data with
  | '"' :: rest =>
    match rest.getLast? with
    | some '"' => ⟨rest.dropLast⟩
    | _ => s
  | _ => s

/-- One parameter of a media type: "key=value" (trimmed, key lowercased,
value unquoted); anything without "=" is a parse error. -/
def parseParam (seg : String) : Option (String × String) :=
  match splitOnChar '=' (trimS seg) with
  | k :: v1 :: vrest =>
    if k == "" then none
    else some (lowerS k, unquoteS (joinWith "=" (v1 :: vrest)))
  | _ => none

def parseParamsList : List String → Option (List (String × String))
  | [] => some []
  | seg :: rest =>
    match parseParam seg with
    | none => none
    | some p => (parseParamsList rest).map (fun ps => p :: ps)

/-- mime.ParseMediaType, modelled for the well-formed inputs this code base
produces: media type before the first ";" (trimmed, lowercased), then
";"-separated key=value parameters; a malformed parameter is an error. -/
def parseMediaType (v : String) : Option (String × List (String × String)) :=
  match splitOnChar ';' v with
  | mt :: segs => (parseParamsList segs).map (fun ps => (lowerS (trimS mt), ps))
  | [] => none

def lookupParam (ps : List (String × String)) (k : String) : Option String :=
  match ps.find? (fun p => p.1 == k) with
  | some (_, v) => some v
  | none => none

/-- Value of one base64 alphabet character. -/
def b64Val (c : Char) : Option Nat :=
  if 'A' ≤ c ∧ c ≤ 'Z' then some (c.toNat - 65)
  else if 'a' ≤ c ∧ c ≤ 'z' then some (c.toNat - 97 + 26)
  else if '0' ≤ c ∧ c ≤ '9' then some (c.toNat - 48 + 52)
  else if c = '+' then some 62
  else if c = '/' then some 63
  else none

/-- base64.StdEncoding decoding of 4-character groups with strict padding. -/
def b64Groups : List Char → Option (List Char)
  | [] => some []
  | c1 :: c2 :: c3 :: c4 :: rest =>
    match b64Val c1, b64Val c2 with
    | some v1, some v2 =>
      if c3 = '=' then
        if c4 = '=' ∧ rest = [] then some [Char.ofNat (v1 * 4 + v2 / 16)]
        else none
      else
        match b64Val c3 with
        | some v3 =>
          if c4 = '=' then
            if rest = [] then
              some [Char.ofNat (v1 * 4 + v2 / 16), Char.ofNat ((v2 % 16) * 16 + v3 / 4)]
            else none
          else
            match b64Val c4 with
            | some v4 =>
              (b64Groups rest).map (fun tl =>
                Char.ofNat (v1 * 4 + v2 / 16) :: Char.ofNat ((v2 % 16) * 16 + v3 / 4) ::
                Char.ofNat ((v3 % 4) * 64 + v4) :: tl)
            | none => none
        | none => none
    | _, _ => none
  | _ => none

/-- base64.StdEncoding.Decode: CR and LF are ignored, anything else outside
the alphabet (or bad padding) is an error. -/
def base64Decode (s : String) : Option String :=
  (b64Groups (s.data.filter (fun c => !(c == '\r' || c == '\n')))).map
    (fun l => (⟨l⟩ : String))

def hexVal (c : Char) : Option Nat :=
  if '0' ≤ c ∧ c ≤ '9' then some (c.toNat - 48)
  else if 'A' ≤ c ∧ c ≤ 'F' then some (c.toNat - 55)
  else if 'a' ≤ c ∧ c ≤ 'f' then some (c.toNat - 87)
  else none

/-- mime/quotedprintable decoding: "=XX" hex escapes and "=\n" (or "=\r\n")
soft line breaks; a malformed escape is an error. -/
def qpChars : List Char → Option (List Char)
  | [] => some []
  | '=' :: rest =>
    match rest with
    | '\r' :: '\n' :: t => qpChars t
    | '\n' :: t => qpChars t
    | a :: b :: t =>
      match hexVal a, hexVal b with
      | some x, some y => (qpChars t).map (fun tl => Char.ofNat (x * 16 + y) :: tl)
      | _, _ => none
    | _ => none
  | c :: t => (qpChars t).map (fun tl => c :: tl)

def qpDecode (s : String) : Option String :=
  (qpChars s.data).map (fun l => (⟨l⟩ : String))

/-- internal/adapters/filter/mime_utils.go, decodeContent (lines 169-189):
dispatch on the lowercased Content-Transfer-Encoding; unknown or empty
encodings are the identity and never fail. -/
def decodeContent (content : String) (encoding : String) : Option String :=
  match lowerS encoding with
  | "base64" => base64Decode content
  | "quoted-printable" => qpDecode content
  | _ => some content

/-- textproto header-line parse: split at the first ":", left-trim the value;
a line without ":" is malformed. -/
def parseHeaderLine (l : String) : Option (String × String) :=
  match splitOnChar ':' l with
  | [] => none
  | [_] => none
  | k :: v1 :: vrest => some (k, trimLeftS (joinWith ":" (v1 :: vrest)))

/-- Scanner position inside the part list: reading the current part's
header block, or its content lines (with the finished header block). -/
inductive PartSt where
  | hdrs (cur : List (String × String))
  | content (hs : List (String × String)) (cur : List String)
deriving DecidableEq

/-- The NextPart loop of mime/multipart.Reader from a position right after
an opening delimiter, at line granularity.  Returns the parts completed
from this position on, whether the loop ended cleanly (final delimiter
seen, reported by NextPart as io.EOF), and the unconsumed lines (what a
subsequent io.ReadAll(msg.Body) would still see).  A malformed header line
or running out of input mid-part is the NextPart / part-read error of the
Go reader: the loop stops with ok = false and the current partial part is
discarded, parts completed before the error are kept. -/
def partsLoop (b : String) (st : PartSt) : List String → List RawPart × Bool × List String
  | [] => ([], false, [])
  | l :: ls =>
    match st with
    | PartSt.hdrs cur =>
      if l == "" then partsLoop b (PartSt.content cur []) ls
      else
        match parseHeaderLine l with
        | none => ([], false, ls)
        | some kv => partsLoop b (PartSt.hdrs (cur ++ [kv])) ls
    | PartSt.content hs cur =>
      if l == "--" ++ b ++ "--" then ([RawPart.mk hs cur], true, ls)
      else if l == "--" ++ b then
        let r := partsLoop b (PartSt.hdrs []) ls
        (RawPart.mk hs cur :: r.1, r.2.1, r.2.2)
      else partsLoop b (PartSt.content hs (cur ++ [l])) ls

/-- Termination measure of a part list: nested extraction recurses into each
part content, which is strictly smaller than the enclosing body because
every part costs at least its delimiter line. -/
def partsMeasure : List RawPart → Nat
  | [] => 0
  | p :: rest => p.content.length + 1 + partsMeasure rest

/-- Cost already paid by the scanner state towards the parts measure. -/
def stCost : PartSt → Nat
  | PartSt.hdrs _ => 1
  | PartSt.content _ cur => cur.length + 1

theorem partsMeasure_partsLoop (b : String) :
    ∀ lines st, partsMeasure (partsLoop b st lines).1 ≤ stCost st + lines.length := by
  intro lines
  induction lines with
  | nil => intro st; cases st <;> simp [partsLoop, partsMeasure]
  | cons l ls ih =>
    intro st
    cases st with
    | hdrs cur =>
      by_cases hb : (l == "") = true
      · simp only [partsLoop, hb, if_true, if_pos]
        have h := ih (PartSt.content cur [])
        simp [stCost] at h ⊢
        omega
      · simp only [partsLoop, hb, Bool.false_eq_true, if_false]
        cases hp : parseHeaderLine l with
        | none => simp [partsMeasure]
        | some kv =>
          have h := ih (PartSt.hdrs (cur ++ [kv]))
          simp [stCost] at h ⊢
          omega
    | content hs cur =>
      by_cases h1 : (l == "--" ++ b ++ "--") = true
      · simp only [partsLoop, h1, if_true, if_pos]
        simp [partsMeasure, stCost]
      · by_cases h2 : (l == "--" ++ b) = true
        · simp only [partsLoop, h1, h2, Bool.false_eq_true, if_false, if_true, if_pos]
          have h := ih (PartSt.hdrs [])
          simp [partsMeasure, stCost] at h ⊢
          omega
        · simp only [partsLoop, h1, h2, Bool.false_eq_true, if_false]
          have h := ih (PartSt.content hs (cur ++ [l]))
          simp [stCost] at h ⊢
          omega

/-- How the preamble scan ended: at an opening delimiter, at an immediately
closing delimiter, or at end of input without any delimiter. -/
inductive PreEnd where
  | openDelim
  | finalDelim
  | eof
deriving DecidableEq

/-- Skip the multipart preamble up to the first delimiter line. -/
def skipPreamble (b : String) : List String → PreEnd × List String
  | [] => (PreEnd.eof, [])
  | l :: ls =>
    if l == "--" ++ b ++ "--" then (PreEnd.finalDelim, ls)
    else if l == "--" ++ b then (PreEnd.openDelim, ls)
    else skipPreamble b ls

theorem skipPreamble_rest_lt (b : String) :
    ∀ lines, (skipPreamble b lines).2.length < lines.length ∨ skipPreamble b lines = (PreEnd.eof, []) := by
  intro lines
  induction lines with
  | nil => right; rfl
  | cons l ls ih =>
    by_cases h1 : (l == "--" ++ b ++ "--") = true
    · left; simp [skipPreamble, h1]
    · by_cases h2 : (l == "--" ++ b) = true
      · left; simp [skipPreamble, h1, h2]
      · simp only [skipPreamble, h1, h2, Bool.false_eq_true, if_false]
        rcases ih with hlt | heq
        · left; simp only [List.length_cons]; omega
        · right; exact heq

/-- The full multipart scan of mime/multipart.Reader driven by NextPart, at
line granularity: skip the preamble, then read parts.  Returns the parts
read before any error, whether the loop ended cleanly (io.EOF after a
closing delimiter), and the unconsumed lines (what a subsequent
io.ReadAll(msg.Body) would still see; when no delimiter line exists at all
the scan consumes everything). -/
def parseMultipartBody (b : String) (lines : List String) :
    List RawPart × Bool × List String :=
  match skipPreamble b lines with
  | (PreEnd.eof, _) => ([], false, [])
  | (PreEnd.finalDelim, rest) => ([], true, rest)
  | (PreEnd.openDelim, rest) => partsLoop b (PartSt.hdrs []) rest

theorem partsMeasure_parseMultipartBody (b : String) (lines : List String) :
    partsMeasure (parseMultipartBody b lines).1 ≤ lines.length := by
  unfold parseMultipartBody
  rcases hsp : skipPreamble b lines with ⟨pe, rest⟩
  cases pe with
  | eof => simp [partsMeasure]
  | finalDelim => simp [partsMeasure]
  | openDelim =>
    simp only
    have hm := partsMeasure_partsLoop b rest (PartSt.hdrs [])
    rcases skipPreamble_rest_lt b lines with hlt | heq
    · rw [hsp] at hlt
      simp at hlt
      simp [stCost] at hm
      omega
    · rw [hsp] at heq
      injection heq with e1 e2
      exact absurd e1 (by simp)

/-- The fixed placeholder body for multipart messages without any text. -/
def noTextPlaceholder : String := "[No text content found in multipart message]"

mutual

/-- The recursion of extractTextFromMessage, made structural on an explicit
fuel argument so that the definition evaluates inside the kernel; the
wrapper extractTextFromMessage supplies fuel 2*|body|+2, which
extractFuel_mono and partsMeasure_parseMultipartBody show is never
exhausted, so the zero-fuel branch is unreachable and the function equals
the unbounded recursion of the Go code (which terminates because each
nested part is strictly smaller than its enclosing body). -/
def extractFuel (fuel : Nat) (msg : MailMessage) : String :=
  match fuel with
  | 0 => ""
  | fuel + 1 =>
    let contentType := headerGet msg.Header "Content-Type"
    if !(containsSub (lowerS contentType) "multipart/") then
      let bodyS := joinLines msg.Body
      match decodeContent bodyS (headerGet msg.Header "Content-Transfer-Encoding") with
      | none => bodyS
      | some d => d
    else
      match parseMediaType contentType with
      | none => joinLines msg.Body
      | some (mediaType, params) =>
        if !(hasPrefixS mediaType "multipart/") then
          let bodyS := joinLines msg.Body
          match decodeContent bodyS (headerGet msg.Header "Content-Transfer-Encoding") with
          | none => bodyS
          | some d => d
        else
          match lookupParam params "boundary" with
          | none => joinLines msg.Body
          | some boundary =>
            let text := multipartTextFuel fuel (parseMultipartBody boundary msg.Body).1
            if text == "" then
              if (parseMultipartBody boundary msg.Body).2.1 then noTextPlaceholder
              else joinLines (parseMultipartBody boundary msg.Body).2.2
            else text

/-- The per-part accumulation loop of extractTextFromMessage: a text/plain
part contributes its transfer-decoded content plus a newline (raw content
on a decode error); a nested multipart part with a parsable multipart
Content-Type and a boundary parameter contributes its recursive extraction
plus a newline when that extraction is nonempty; every other part
contributes nothing. -/
def multipartTextFuel (fuel : Nat) (parts : List RawPart) : String :=
  match fuel, parts with
  | 0, _ => ""
  | _, [] => ""
  | fuel + 1, p :: rest =>
    let ct := partHeaderGet p.headers "Content-Type"
    let contribution :=
      if containsSub (lowerS ct) "text/plain" then
        let raw := joinLines p.content
        (match decodeContent raw (partHeaderGet p.headers "Content-Transfer-Encoding") with
         | none => raw
         | some d => d) ++ "\n"
      else if containsSub (lowerS ct) "multipart/" then
        match parseMediaType ct with
        | none => ""
        | some (mt, ps) =>
          if !(hasPrefixS mt "multipart/") then ""
          else
            match lookupParam ps "boundary" with
            | none => ""
            | some _ =>
              let nested := extractFuel fuel (MailMessage.mk [("Content-Type", [ct])] p.content)
              if nested == "" then "" else nested ++ "\n"
      else ""
    contribution ++ multipartTextFuel fuel rest

end

/-- internal/adapters/filter/mime_utils.go, extractTextFromMessage (lines
16-166).  Non-multipart Content-Type: decode the whole body once per the
Content-Transfer-Encoding header (falling back to the raw body on a decode
error).  An unparsable Content-Type or a missing boundary parameter
returns the raw body as is.  Otherwise the multipart body is scanned and
the parts accumulated by the multipart loop; with no accumulated text a
cleanly terminated scan yields the fixed placeholder while a failed scan
falls back to reading the remaining body bytes.  In this pure model a body
read (io.ReadAll) never fails, so the error returns of the Go function do
not arise. -/
def extractTextFromMessage (msg : MailMessage) : String :=
  extractFuel (2 * msg.Body.length + 2) msg

end filter
namespace filter

/-- The extraction rule exactly as the specification words it for a
multipart body: each text/plain part contributes its transfer-decoded
content followed by a newline, every other part contributes nothing. -/
def specTextOfParts : List RawPart → String
  | [] => ""
  | p :: rest =>
    (if containsSub (lowerS (partHeaderGet p.headers "Content-Type")) "text/plain" then
      (match decodeContent (joinLines p.content) (partHeaderGet p.headers "Content-Transfer-Encoding") with
       | none => joinLines p.content
       | some d => d) ++ "\n"
     else "") ++ specTextOfParts rest

theorem partsMeasure_ge_length (parts : List RawPart) :
    parts.length ≤ partsMeasure parts := by
  induction parts with
  | nil => simp [partsMeasure]
  | cons p rest ih => simp [partsMeasure]; omega

/-- On a part list without nested multipart parts, the code's accumulation
loop computes exactly the specification's fold, for any sufficient fuel. -/
theorem multipartTextFuel_flat :
    ∀ (parts : List RawPart) (f : Nat),
      parts.length + 1 ≤ f →
      (∀ p ∈ parts, containsSub (lowerS (partHeaderGet p.headers "Content-Type")) "multipart/" = false) →
      multipartTextFuel f parts = specTextOfParts parts := by
  intro parts
  induction parts with
  | nil =>
    intro f hf hflat
    cases f with
    | zero => simp [multipartTextFuel, specTextOfParts]
    | succ f2 => simp [multipartTextFuel, specTextOfParts]
  | cons p rest ih =>
    intro f hf hflat
    cases f with
    | zero => simp [List.length_cons] at hf
    | succ f2 =>
      have hp := hflat p (by simp)
      have hrest : ∀ q ∈ rest, containsSub (lowerS (partHeaderGet q.headers "Content-Type")) "multipart/" = false :=
        fun q hq => hflat q (by simp [hq])
      have hfuel : rest.length + 1 ≤ f2 := by
        simp [List.length_cons] at hf
        omega
      by_cases ht : containsSub (lowerS (partHeaderGet p.headers "Content-Type")) "text/plain" = true
      · simp only [multipartTextFuel, specTextOfParts, ht, if_true, if_pos]
        rw [ih f2 hfuel hrest]
      · simp only [multipartTextFuel, specTextOfParts, ht, hp, Bool.false_eq_true, if_false]
        rw [ih f2 hfuel hrest]

/-- One unfolding step of the extractor on a multipart message whose
Content-Type parses and declares a boundary. -/
theorem extractFuel_multipart (f : Nat) (msg : MailMessage) (mt : String)
    (ps : List (String × String)) (b : String)
    (h1 : containsSub (lowerS (headerGet msg.Header "Content-Type")) "multipart/" = true)
    (h2 : parseMediaType (headerGet msg.Header "Content-Type") = some (mt, ps))
    (h3 : hasPrefixS mt "multipart/" = true)
    (h4 : lookupParam ps "boundary" = some b) :
    extractFuel (f + 1) msg =
      (if multipartTextFuel f (parseMultipartBody b msg.Body).1 == "" then
        if (parseMultipartBody b msg.Body).2.1 then noTextPlaceholder
        else joinLines (parseMultipartBody b msg.Body).2.2
      else multipartTextFuel f (parseMultipartBody b msg.Body).1) := by
  simp only [extractFuel, h1, h2, h3, h4]
  simp

/-- One unfolding step of the extractor on a multipart message whose
Content-Type parses but declares no boundary parameter: the raw body is
returned without any transfer decoding. -/
theorem extractFuel_multipart_noBoundary (f : Nat) (msg : MailMessage) (mt : String)
    (ps : List (String × String))
    (h1 : containsSub (lowerS (headerGet msg.Header "Content-Type")) "multipart/" = true)
    (h2 : parseMediaType (headerGet msg.Header "Content-Type") = some (mt, ps))
    (h3 : hasPrefixS mt "multipart/" = true)
    (h4 : lookupParam ps "boundary" = none) :
    extractFuel (f + 1) msg = joinLines msg.Body := by
  simp only [extractFuel, h1, h2, h3, h4]
  simp

end filter

/-! ## Claims C5, C6, C7 -/

/-- The spec's multipart example: one text/plain part "Hello world" and one
application/octet-stream attachment. -/
def msgHello : filter.MailMessage :=
  { Header := [("Content-Type", ["multipart/mixed; boundary=b1"])],
    Body := ["preamble", "--b1", "Content-Type: text/plain", "", "Hello world",
             "--b1", "Content-Type: application/octet-stream", "", "DATA", "--b1--",
             "epilogue"] }

/-- The parts of msgHello as the multipart scan produces them. -/
def partsHello : List filter.RawPart :=
  [filter.RawPart.mk [("Content-Type", "text/plain")] ["Hello world"],
   filter.RawPart.mk [("Content-Type", "application/octet-stream")] ["DATA"]]

/-- A multipart message containing only an attachment part and no
text/plain part anywhere. -/
def msgOnlyAttachment : filter.MailMessage :=
  { Header := [("Content-Type", ["multipart/mixed; boundary=b1"])],
    Body := ["--b1", "Content-Type: application/octet-stream", "", "DATA", "--b1--"] }

/-- Claim C5 (amended): for a multipart message with a valid declared
boundary whose parts contain no nested multipart part, the extracted body
is the concatenation, in part order, of each text/plain part decoded per
its own Content-Transfer-Encoding and followed by a newline, with all
other part types contributing nothing - except that when that
concatenation is empty the fixed placeholder string is returned instead.
(Nested multipart parts additionally contribute their recursive extraction
followed by a newline; see the nested-extraction theorem of claim C6.) -/
theorem C5_multipart_extraction (msg : filter.MailMessage) (mt b rem2 : String)
    (ps : List (String × String)) (parts : List filter.RawPart) (rem : List String)
    (h1 : containsSub (lowerS (filter.headerGet msg.Header "Content-Type")) "multipart/" = true)
    (h2 : filter.parseMediaType (filter.headerGet msg.Header "Content-Type") = some (mt, ps))
    (h3 : hasPrefixS mt "multipart/" = true)
    (h4 : filter.lookupParam ps "boundary" = some b)
    (h5 : filter.parseMultipartBody b msg.Body = (parts, true, rem))
    (h6 : ∀ p ∈ parts,
      containsSub (lowerS (filter.partHeaderGet p.headers "Content-Type")) "multipart/" = false) :
    filter.extractTextFromMessage msg =
      (if filter.specTextOfParts parts == "" then filter.noTextPlaceholder
       else filter.specTextOfParts parts) := by
  have hmeas : filter.partsMeasure parts ≤ msg.Body.length := by
    have h := filter.partsMeasure_parseMultipartBody b msg.Body
    rw [h5] at h
    exact h
  have hlen : parts.length ≤ msg.Body.length :=
    le_trans (filter.partsMeasure_ge_length parts) hmeas
  have hfuel : parts.length + 1 ≤ 2 * msg.Body.length + 1 := by omega
  unfold filter.extractTextFromMessage
  rw [show 2 * msg.Body.length + 2 = (2 * msg.Body.length + 1) + 1 from rfl]
  rw [filter.extractFuel_multipart (2 * msg.Body.length + 1) msg mt ps b h1 h2 h3 h4]
  rw [h5]
  simp only
  rw [filter.multipartTextFuel_flat parts (2 * msg.Body.length + 1) hfuel h6]
  simp

/-- Witness for claim C5: the spec's example extracts "Hello world\n". -/
theorem C5_witness :
    filter.extractTextFromMessage msgHello = "Hello world\n" := by
  have h := C5_multipart_extraction msgHello "multipart/mixed" "b1" "" [("boundary", "b1")]
    partsHello ["epilogue"] (by decide) (by decide) (by decide) (by decide) (by decide)
    (by decide)
  rw [h]
  decide

/-- Counterexample for claim C5 as stated: a multipart message with no
text/plain part has an empty concatenation, but the code returns the fixed
placeholder string instead of the empty body the claim prescribes. -/
theorem C5_counterexample :
    filter.extractTextFromMessage msgOnlyAttachment = filter.noTextPlaceholder ∧
    filter.specTextOfParts (filter.parseMultipartBody "b1" msgOnlyAttachment.Body).1 = "" ∧
    filter.noTextPlaceholder ≠ "" := by
  refine ⟨by decide, by decide, by decide⟩

/-- A message with three nested multipart levels around one text part. -/
def msgNested3 : filter.MailMessage :=
  { Header := [("Content-Type", ["multipart/mixed; boundary=o"])],
    Body := ["--o", "Content-Type: multipart/mixed; boundary=m", "",
             "--m", "Content-Type: multipart/mixed; boundary=i", "",
             "--i", "Content-Type: text/plain", "", "deep text", "--i--",
             "--m--", "--o--"] }

/-- Claim C6: the extractor walks through every nesting level with no
enforced depth cap - here three nested multipart levels are fully
descended and the innermost text is extracted (each enclosing level adds
one trailing newline).  Termination nevertheless holds for every input
because each nested part's content is strictly smaller than its enclosing
body (partsMeasure_parseMultipartBody); no limit-exceeded fallback exists
in the code. -/
theorem C6_nested_descent_no_cap :
    filter.extractTextFromMessage msgNested3 = "deep text\n\n\n" := by
  decide

/-- A multipart Content-Type without a boundary parameter, with a base64
Content-Transfer-Encoding declared. -/
def msgNoBoundary : filter.MailMessage :=
  { Header := [("Content-Type", ["multipart/mixed"]),
               ("Content-Transfer-Encoding", ["base64"])],
    Body := ["aGk="] }

/-- Claim C7 (amended): for a message whose Content-Type is multipart/* but
whose boundary parameter is missing, extraction returns the raw body as
is, without applying the declared Content-Transfer-Encoding - unlike the
non-multipart path, which does decode. -/
theorem C7_missing_boundary_returns_raw (msg : filter.MailMessage) (mt : String)
    (ps : List (String × String))
    (h1 : containsSub (lowerS (filter.headerGet msg.Header "Content-Type")) "multipart/" = true)
    (h2 : filter.parseMediaType (filter.headerGet msg.Header "Content-Type") = some (mt, ps))
    (h3 : hasPrefixS mt "multipart/" = true)
    (h4 : filter.lookupParam ps "boundary" = none) :
    filter.extractTextFromMessage msg = joinLines msg.Body := by
  unfold filter.extractTextFromMessage
  rw [show 2 * msg.Body.length + 2 = (2 * msg.Body.length + 1) + 1 from rfl]
  exact filter.extractFuel_multipart_noBoundary (2 * msg.Body.length + 1) msg mt ps h1 h2 h3 h4

/-- Witness for claim C7: the base64 body of a boundary-less multipart
message is passed through undecoded. -/
theorem C7_witness :
    filter.extractTextFromMessage msgNoBoundary = "aGk=" := by
  have h := C7_missing_boundary_returns_raw msgNoBoundary "multipart/mixed" []
    (by decide) (by decide) (by decide) (by decide)
  rw [h]
  decide

/-- Counterexample for claim C7 as stated: with Content-Type
multipart/mixed (no boundary) and Content-Transfer-Encoding base64, the
body "aGk=" is returned verbatim, although the claimed non-multipart
treatment would decode it to "hi". -/
theorem C7_counterexample :
    filter.extractTextFromMessage msgNoBoundary = "aGk=" ∧
    filter.decodeContent (joinLines msgNoBoundary.Body)
      (filter.headerGet msgNoBoundary.Header "Content-Transfer-Encoding") = some "hi" ∧
    ("aGk=" : String) ≠ "hi" := by
  refine ⟨by decide, by decide, by decide⟩

/-! ## Protocol adapters (internal/adapters/filter) -/

namespace filter

/-- Split the raw message lines at the first blank line into header block
and body (standard internet-message framing); no blank line is the fatal
parse error of mail.ReadMessage. -/
def splitAtBlank : List String → Option (List String × List String)
  | [] => none
  | l :: ls =>
    if l == "" then some ([], ls)
    else (splitAtBlank ls).map (fun p => (l :: p.1, p.2))

def parseHeaderLinesAll : List String → Option (List (String × String))
  | [] => some []
  | l :: ls =>
    match parseHeaderLine l with
    | none => none
    | some kv => (parseHeaderLinesAll ls).map (fun ps => kv :: ps)

/-- Group repeated header keys (case-insensitively, modelling canonical-key
folding) into one entry with the values in order. -/
def addHeaderValue : List (String × List String) → String → String → List (String × List String)
  | [], k, v => [(k, [v])]
  | (k2, vs) :: rest, k, v =>
    if equalFold k2 k then (k2, vs ++ [v]) :: rest
    else (k2, vs) :: addHeaderValue rest k v

def collectHeaders (ps : List (String × String)) : List (String × List String) :=
  ps.foldl (fun acc p => addHeaderValue acc p.1 p.2) []

/-- net/mail.ReadMessage at line granularity: header lines until the first
blank line, then the raw body; a missing blank line or a malformed header
line is a parse error. -/
def parseMailMessage (lines : List String) : Option MailMessage :=
  match splitAtBlank lines with
  | none => none
  | some (hls, bls) =>
    match parseHeaderLinesAll hls with
    | none => none
    | some ps => some (MailMessage.mk (collectHeaders ps) bls)

/-- A header value of the reconstructed message: the injected headers carry
a boolean flag, the numeric score (formatted %.4f in Go, carried exactly
here) or free text. -/
inductive HVal where
  | b (x : Bool)
  | score (q : Rat)
  | txt (s : String)
deriving DecidableEq

/-- The reconstructed outbound message: rewritten header block over the
original raw body bytes (the lines after the first blank line, which for a
parsed message are exactly msg.Body). -/
structure ModifiedMessage where
  headerLines : List (String × HVal)
  bodyLines : List String
deriving DecidableEq

def flattenHeaders : List (String × List String) → List (String × HVal)
  | [] => []
  | (k, vs) :: rest => vs.map (fun v => (k, HVal.txt v)) ++ flattenHeaders rest

/-- Which steps of the fresh outbound SMTP transaction of sendToPostfix
succeed: connection dial, connection deadline, EHLO, MAIL FROM, each
RCPT TO (per recipient), DATA, the payload write, the data-writer close and
the final QUIT. -/
structure SmtpEnv where
  dialOk : Bool
  deadlineOk : Bool
  helloOk : Bool
  mailOk : Bool
  rcptOk : String → Bool
  dataOk : Bool
  writeOk : Bool
  closeOk : Bool
  quitOk : Bool

/-- The environment in which every outbound step succeeds. -/
def okEnv : SmtpEnv :=
  { dialOk := true, deadlineOk := true, helloOk := true, mailOk := true,
    rcptOk := fun _ => true, dataOk := true, writeOk := true, closeOk := true,
    quitOk := true }

/-- internal/adapters/filter/postfix_filter.go, PostfixFilter.sendToPostfix
(lines 115-191): per-recipient RCPT TO failures are logged and skipped; the
transaction fails only if a connection/protocol step fails or every
recipient is rejected; a QUIT failure after the payload was accepted is
logged and deliberately not returned as an error.  Returns the error, none
on success. -/
def sendToPostfix (env : SmtpEnv) (sender : String) (recipients : List String)
    (emailData : ModifiedMessage) : Option String :=
  if !env.dialOk then some "failed to connect to Postfix"
  else if !env.deadlineOk then some "failed to set connection deadline"
  else if !env.helloOk then some "EHLO failed"
  else if !env.mailOk then some "MAIL FROM failed"
  else if !(recipients.any env.rcptOk) then some "all recipients were rejected"
  else if !env.dataOk then some "DATA command failed"
  else if !env.writeOk then some "failed to send email data"
  else if !env.closeOk then some "failed to close data writer"
  else none

/-- The Email value the SMTP session builds for analysis (postfix_filter.go
lines 265-281): envelope sender/recipients, extracted text body, parsed
headers, Subject from the header map. -/
def mkEmailFromSession (sender : String) (recipients : List String)
    (msg : MailMessage) : core.Email :=
  { From := sender, To := recipients, Subject := headerGet msg.Header "Subject",
    Body := extractTextFromMessage msg, Headers := msg.Header }

/-- The fallback analysis result synthesized when AnalyzeEmail fails
(postfix_filter.go lines 304-313). -/
def fallbackResult (e : String) (now : Int) : core.SpamAnalysisResult :=
  { IsSpam := false, Score := 0, Confidence := 0,
    Explanation := "Error during analysis: " ++ e, AnalyzedAt := now,
    ModelUsed := "error", ProcessingID := "" }

/-- Configuration of the Postfix content filter (postfix_filter.go);
subjectTag models the subjectPrefix field. -/
structure PostfixConfig where
  blockSpam : Bool
  spamHeader : String
  scoreHeader : String
  reasonHeader : String
  postfixEnabled : Bool
  subjectTag : String
  modifySubject : Bool

/-- Protocol-level outcome of the Data phase: a transaction-failing error
for an unparsable message, the permanent spam rejection carrying the
score, a successful forward of the reconstructed message, a failed forward
(Data returns the sendToPostfix error), or acceptance without forwarding
when postfixEnabled is off. -/
inductive DataOutcome where
  | rejectParse
  | rejectSpam (score : Rat)
  | forwarded (msg : ModifiedMessage)
  | forwardFailed (err : String)
  | acceptedNoForward (msg : ModifiedMessage)
deriving DecidableEq

/-- The forwarding tail of the Data phase (postfix_filter.go lines
411-432): send the reconstructed message upstream when forwarding is
enabled, otherwise accept without forwarding (logged misconfiguration). -/
def forwardModified (cfg : PostfixConfig) (env : SmtpEnv) (sender : String)
    (recipients : List String) (modified : ModifiedMessage) : DataOutcome :=
  if cfg.postfixEnabled then
    match sendToPostfix env sender recipients modified with
    | some err => DataOutcome.forwardFailed err
    | none => DataOutcome.forwarded modified
  else DataOutcome.acceptedNoForward modified

theorem forwardModified_ne_reject (cfg : PostfixConfig) (env : SmtpEnv)
    (sender : String) (recipients : List String) (modified : ModifiedMessage) :
    (∀ sc, forwardModified cfg env sender recipients modified ≠ DataOutcome.rejectSpam sc) ∧
    forwardModified cfg env sender recipients modified ≠ DataOutcome.rejectParse := by
  unfold forwardModified
  constructor
  · intro sc
    split
    · split <;> simp
    · simp
  · split
    · split <;> simp
    · simp

/-- internal/adapters/filter/postfix_filter.go, smtpSession.Data (lines
239-433).  decodeHdr stands for decodeEncodedHeader (with its internal
fall-back to the raw header on a decode error); analyze stands for
service.AnalyzeEmail under the 10s deadline, a deadline expiry being an
Except.error like any classifier error. -/
def smtpSessionData (cfg : PostfixConfig) (env : SmtpEnv)
    (decodeHdr : String → String)
    (analyze : core.Email → Except String core.SpamAnalysisResult)
    (now : Int) (sender : String) (recipients : List String)
    (rawLines : List String) : DataOutcome :=
  match parseMailMessage rawLines with
  | none => DataOutcome.rejectParse
  | some msg =>
    let email := mkEmailFromSession sender recipients msg
    let resOpt := analyze email
    let analysisOk := match resOpt with
      | Except.ok _ => true
      | Except.error _ => false
    let result := match resOpt with
      | Except.ok r => r
      | Except.error e => fallbackResult e now
    let isSpam := result.IsSpam
    if isSpam && cfg.blockSpam && analysisOk then
      DataOutcome.rejectSpam result.Score
    else
      let decisionHeaders := [(cfg.spamHeader, HVal.b isSpam),
                              (cfg.scoreHeader, HVal.score result.Score),
                              (cfg.reasonHeader, HVal.txt result.Explanation)]
      let errHeaders := match resOpt with
        | Except.error e => [("X-Spam-Analysis-Error", HVal.txt e)]
        | Except.ok _ => []
      let subjectBlock :=
        if isSpam && cfg.modifySubject && !(cfg.subjectTag == "") then
          let decoded := decodeHdr (headerGet msg.Header "Subject")
          if !(hasPrefixS decoded cfg.subjectTag) then
            ("Subject", HVal.txt (cfg.subjectTag ++ decoded)) ::
              flattenHeaders (msg.Header.filter (fun p => !(equalFold p.1 "Subject")))
          else flattenHeaders msg.Header
        else flattenHeaders msg.Header
      forwardModified cfg env sender recipients
        { headerLines := decisionHeaders ++ errHeaders ++ subjectBlock,
          bodyLines := msg.Body }

/-- Configuration of the milter filter (milter_filter.go). -/
structure MilterConfig where
  blockSpam : Bool
  spamHeader : String
  scoreHeader : String
  reasonHeader : String

/-- Milter protocol response of the Body callback. -/
inductive MilterResponse where
  | accept
  | reject
  | modification (adds : List (String × HVal))
deriving DecidableEq

/-- internal/adapters/filter/milter_filter.go, extractEmailAddress (lines
198-209): the text between the last "<" and the last ">" when both exist
in that order, the whole string otherwise. -/
def lastIndexOfChar (c : Char) (s : String) : Option Nat :=
  (s.data.reverse.findIdx? (fun x => x == c)).map (fun i => s.data.length - 1 - i)

def extractEmailAddress (s : String) : String :=
  match lastIndexOfChar '<' s, lastIndexOfChar '>' s with
  | some i, some j =>
    if i < j then (⟨(s.data.drop (i + 1)).take (j - i - 1)⟩ : String) else s
  | _, _ => s

/-- The Email value the milter Body callback builds (milter_filter.go lines
120-142): exact-key header map lookups, addresses unwrapped from angle
brackets. -/
def mkMilterEmail (headers : List (String × List String)) (body : String) : core.Email :=
  { Headers := headers, Body := body,
    From := match headers.find? (fun p => p.1 == "From") with
            | some (_, v :: _) => extractEmailAddress v
            | _ => "",
    To := match headers.find? (fun p => p.1 == "To") with
          | some (_, vs) => vs.map extractEmailAddress
          | none => [],
    Subject := match headers.find? (fun p => p.1 == "Subject") with
               | some (_, v :: _) => v
               | _ => "" }

/-- internal/adapters/filter/milter_filter.go, MilterFilter.Body (lines
120-195).  An analysis error yields Accept (fail open, no headers).  On
success the spam decision is recomputed as service.IsSpam(result), i.e.
Score >= threshold - the result's own IsSpam flag is ignored - and the
message is rejected (without any score in the response) iff that holds and
blockSpam is set; otherwise the three decision headers are added. -/
def MilterFilter.Body (cfg : MilterConfig) (threshold : Rat)
    (analyze : core.Email → Except String core.SpamAnalysisResult)
    (headers : List (String × List String)) (body : String) : MilterResponse :=
  let email := mkMilterEmail headers body
  match analyze email with
  | Except.error _ => MilterResponse.accept
  | Except.ok result =>
    let isSpam := decide (result.Score ≥ threshold)
    let adds := [(cfg.spamHeader, HVal.b isSpam),
                 (cfg.scoreHeader, HVal.score result.Score),
                 (cfg.reasonHeader, HVal.txt result.Explanation)]
    if isSpam && cfg.blockSpam then MilterResponse.reject
    else MilterResponse.modification adds

end filter

/-! ## Claim C2 -/

/-- Claim C2: when the analysis returns an error (deadline expiry included,
modelled as any Except.error), the SMTP session never rejects the
transaction as spam (for any forwarding configuration and upstream
behaviour), synthesizes the fallback result with IsSpam = false and
ModelUsed = "error" whose Explanation contains the error text, and - with
forwarding enabled and a healthy upstream - still forwards the message
carrying the decision headers (spam flag false, score 0, reason with the
error text) plus the X-Spam-Analysis-Error diagnostic header. -/
theorem C2_analysis_error_fails_open (cfg : filter.PostfixConfig) (env : filter.SmtpEnv)
    (decodeHdr : String → String)
    (analyze : core.Email → Except String core.SpamAnalysisResult)
    (now : Int) (sender : String) (recipients : List String)
    (rawLines : List String) (msg : filter.MailMessage) (e : String)
    (hp : filter.parseMailMessage rawLines = some msg)
    (ha : analyze (filter.mkEmailFromSession sender recipients msg) = Except.error e)
    (hpost : cfg.postfixEnabled = true)
    (henv : env = filter.okEnv)
    (hr : recipients ≠ []) :
    (∃ m, filter.smtpSessionData cfg env decodeHdr analyze now sender recipients rawLines =
        filter.DataOutcome.forwarded m ∧
      (cfg.spamHeader, filter.HVal.b false) ∈ m.headerLines ∧
      (cfg.scoreHeader, filter.HVal.score 0) ∈ m.headerLines ∧
      (cfg.reasonHeader, filter.HVal.txt ("Error during analysis: " ++ e)) ∈ m.headerLines ∧
      ("X-Spam-Analysis-Error", filter.HVal.txt e) ∈ m.headerLines) ∧
    (filter.fallbackResult e now).ModelUsed = "error" ∧
    (filter.fallbackResult e now).IsSpam = false ∧
    (∀ (pe : Bool) (env2 : filter.SmtpEnv) (sc : Rat),
      filter.smtpSessionData { cfg with postfixEnabled := pe } env2 decodeHdr analyze now
        sender recipients rawLines ≠ filter.DataOutcome.rejectSpam sc ∧
      filter.smtpSessionData { cfg with postfixEnabled := pe } env2 decodeHdr analyze now
        sender recipients rawLines ≠ filter.DataOutcome.rejectParse) := by
  subst henv
  have hany : (recipients.any (fun _ => true)) = true := by
    cases recipients with
    | nil => exact absurd rfl hr
    | cons a as => simp
  refine ⟨?_, rfl, rfl, ?_⟩
  · refine ⟨{ headerLines := (cfg.spamHeader, filter.HVal.b false) :: (cfg.scoreHeader, filter.HVal.score 0) :: (cfg.reasonHeader, filter.HVal.txt ("Error during analysis: " ++ e)) :: ("X-Spam-Analysis-Error", filter.HVal.txt e) :: filter.flattenHeaders msg.Header, bodyLines := msg.Body }, ?_, by simp, by simp, by simp, by simp⟩
    simp only [filter.smtpSessionData, filter.forwardModified, hp, ha, hpost,
               filter.fallbackResult, filter.sendToPostfix, filter.okEnv, hany]
    simp
  · intro pe env2 sc
    refine ⟨?_, ?_⟩ <;>
      simp only [filter.smtpSessionData, hp, ha, filter.fallbackResult] <;>
      simp [filter.forwardModified_ne_reject]

/-- A concrete raw message and its parse, for the adapter claims. -/
def rawLines0 : List String := ["From: a@b.com", "Subject: hello", "", "content"]

def msg0 : filter.MailMessage :=
  { Header := [("From", ["a@b.com"]), ("Subject", ["hello"])], Body := ["content"] }

/-- A concrete Postfix filter configuration with blocking enabled. -/
def cfg0 : filter.PostfixConfig :=
  { blockSpam := true, spamHeader := "X-Spam-Status", scoreHeader := "X-Spam-Score",
    reasonHeader := "X-Spam-Reason", postfixEnabled := true,
    subjectTag := "[**SPAM**] ", modifySubject := true }

/-- Witness for claim C2: a failing classifier ("boom") still leads to a
forwarded message carrying the false spam flag and the diagnostic header. -/
theorem C2_witness :
    ∃ m, filter.smtpSessionData cfg0 filter.okEnv (fun s => s)
        (fun _ => Except.error "boom") 0 "s@x.com" ["r@y.com"] rawLines0 =
        filter.DataOutcome.forwarded m ∧
      ("X-Spam-Status", filter.HVal.b false) ∈ m.headerLines ∧
      ("X-Spam-Analysis-Error", filter.HVal.txt "boom") ∈ m.headerLines := by
  obtain ⟨m, h1, h2, h3, h4, h5⟩ := (C2_analysis_error_fails_open cfg0 filter.okEnv
    (fun s => s) (fun _ => Except.error "boom") 0 "s@x.com" ["r@y.com"] rawLines0 msg0
    "boom" (by decide) rfl rfl rfl (by decide)).1
  exact ⟨m, h1, h2, h5⟩

/-! ## Claim C3 -/

/-- Claim C3 (amended): with a successful analysis, the Postfix session
rejects with the 550-with-score response exactly when the analysis
result's IsSpam is true and blockSpam is enabled, and in that case the
message is never forwarded; the milter adapter however recomputes the
decision as Score >= threshold, ignoring the result's IsSpam flag, and its
rejection response carries no score. -/
theorem C3_reject_iff (cfg : filter.PostfixConfig) (env : filter.SmtpEnv)
    (decodeHdr : String → String)
    (analyze : core.Email → Except String core.SpamAnalysisResult)
    (now : Int) (sender : String) (recipients : List String)
    (rawLines : List String) (msg : filter.MailMessage) (r : core.SpamAnalysisResult)
    (hp : filter.parseMailMessage rawLines = some msg)
    (hok : analyze (filter.mkEmailFromSession sender recipients msg) = Except.ok r) :
    (∀ sc, filter.smtpSessionData cfg env decodeHdr analyze now sender recipients rawLines =
        filter.DataOutcome.rejectSpam sc ↔
      (r.IsSpam = true ∧ cfg.blockSpam = true ∧ sc = r.Score)) ∧
    (r.IsSpam = true → cfg.blockSpam = true →
      ∀ m, filter.smtpSessionData cfg env decodeHdr analyze now sender recipients rawLines ≠
        filter.DataOutcome.forwarded m) ∧
    (∀ (mcfg : filter.MilterConfig) (thr : Rat)
        (analyzeM : core.Email → Except String core.SpamAnalysisResult)
        (headers : List (String × List String)) (body : String)
        (r2 : core.SpamAnalysisResult),
      analyzeM (filter.mkMilterEmail headers body) = Except.ok r2 →
      (filter.MilterFilter.Body mcfg thr analyzeM headers body = filter.MilterResponse.reject ↔
        (decide (r2.Score ≥ thr) = true ∧ mcfg.blockSpam = true))) := by
  refine ⟨?_, ?_, ?_⟩
  · intro sc
    simp only [filter.smtpSessionData, hp, hok]
    by_cases hs : r.IsSpam = true
    · by_cases hb : cfg.blockSpam = true
      · simp [hs, hb, eq_comm]
      · simp [hs, hb]
        exact (filter.forwardModified_ne_reject cfg env sender recipients _).1 sc
    · by_cases hb : cfg.blockSpam = true
      · simp [hs, hb]
        exact (filter.forwardModified_ne_reject cfg env sender recipients _).1 sc
      · simp [hs, hb]
        exact (filter.forwardModified_ne_reject cfg env sender recipients _).1 sc
  · intro hs hb m
    simp only [filter.smtpSessionData, hp, hok, hs, hb]
    simp
  · intro mcfg thr analyzeM headers body r2 hok2
    simp only [filter.MilterFilter.Body, hok2]
    by_cases hscore : decide (r2.Score ≥ thr) = true <;> by_cases hb : mcfg.blockSpam = true <;>
      simp [hscore, hb]

/-- A concrete result whose own IsSpam flag is true with a low score. -/
def rLow : core.SpamAnalysisResult :=
  { IsSpam := true, Score := mkRat 1 10, Confidence := 1, Explanation := "e",
    AnalyzedAt := 0, ModelUsed := "m", ProcessingID := "" }

/-- A concrete result marked spam with a high score. -/
def rHigh : core.SpamAnalysisResult :=
  { IsSpam := true, Score := mkRat 9 10, Confidence := 1, Explanation := "spammy",
    AnalyzedAt := 0, ModelUsed := "m", ProcessingID := "" }

/-- A concrete milter configuration with blocking enabled. -/
def mcfg0 : filter.MilterConfig :=
  { blockSpam := true, spamHeader := "X-Spam-Status", scoreHeader := "X-Spam-Score",
    reasonHeader := "X-Spam-Reason" }

/-- Counterexample for claim C3 as stated: the milter adapter does not
reject a transaction whose analysis result has IsSpam = true (block-spam
enabled, no error) because its score 0.1 is below the 0.7 threshold - the
rejection condition of that adapter is the recomputed threshold decision,
not the result's IsSpam. -/
theorem C3_counterexample :
    filter.MilterFilter.Body mcfg0 (mkRat 7 10) (fun _ => Except.ok rLow)
        [("From", ["x@y.com"])] "b" ≠ filter.MilterResponse.reject ∧
    rLow.IsSpam = true ∧ mcfg0.blockSpam = true := by
  refine ⟨by decide, rfl, rfl⟩

/-- Witness for claim C3: a high-scoring spam result is rejected with the
score by the Postfix session and rejected by the milter. -/
theorem C3_witness :
    filter.smtpSessionData cfg0 filter.okEnv (fun s => s) (fun _ => Except.ok rHigh) 0
      "s@x.com" ["r@y.com"] rawLines0 = filter.DataOutcome.rejectSpam (mkRat 9 10) ∧
    filter.MilterFilter.Body mcfg0 (mkRat 7 10) (fun _ => Except.ok rHigh)
      [("From", ["x@y.com"])] "b" = filter.MilterResponse.reject := by
  constructor
  · exact ((C3_reject_iff cfg0 filter.okEnv (fun s => s) (fun _ => Except.ok rHigh) 0
      "s@x.com" ["r@y.com"] rawLines0 msg0 rHigh (by decide) rfl).1 (mkRat 9 10)).mpr
      ⟨rfl, rfl, rfl⟩
  · exact ((C3_reject_iff cfg0 filter.okEnv (fun s => s) (fun _ => Except.ok rHigh) 0
      "s@x.com" ["r@y.com"] rawLines0 msg0 rHigh (by decide) rfl).2.2 mcfg0 (mkRat 7 10)
      (fun _ => Except.ok rHigh) [("From", ["x@y.com"])] "b" rHigh rfl).mpr
      ⟨by decide, rfl⟩

/-! ## Claim C10 -/

/-- Claim C10 (amended): sendToPostfix returns no error iff the connection
steps (dial, deadline, EHLO, MAIL FROM), at least one RCPT TO, and the
data steps (DATA, payload write, data close) all succeed - individual
rejected recipients are skipped rather than aborting, and an all-rejected
recipient list is the dedicated error; a QUIT failure after the payload
was accepted is deliberately not reported as an error (the message has
already been delivered). -/
theorem C10_sendToPostfix_error_iff (env : filter.SmtpEnv) (sender : String)
    (recipients : List String) (m : filter.ModifiedMessage) :
    (filter.sendToPostfix env sender recipients m = none ↔
      (env.dialOk = true ∧ env.deadlineOk = true ∧ env.helloOk = true ∧ env.mailOk = true ∧
       recipients.any env.rcptOk = true ∧ env.dataOk = true ∧ env.writeOk = true ∧
       env.closeOk = true)) ∧
    (env.dialOk = true → env.deadlineOk = true → env.helloOk = true → env.mailOk = true →
      recipients.any env.rcptOk = false →
      filter.sendToPostfix env sender recipients m = some "all recipients were rejected") := by
  obtain ⟨d, dl, hh, ma, rc, da, w, cl, q⟩ := env
  simp only [filter.sendToPostfix]
  constructor
  · cases d <;> cases dl <;> cases hh <;> cases ma <;> cases da <;> cases w <;> cases cl <;>
      by_cases hany : (recipients.any rc) = true <;> simp [hany]
  · intro h1 h2 h3 h4 h5
    simp [h1, h2, h3, h4, h5]

/-- An empty reconstructed message, for the forwarding claims. -/
def mm0 : filter.ModifiedMessage := { headerLines := [], bodyLines := [] }

/-- An environment in which only the final QUIT fails. -/
def envQuitFail : filter.SmtpEnv := { filter.okEnv with quitOk := false }

/-- Counterexample for claim C10 as stated: with every step up to and
including the data close succeeding but the QUIT protocol step failing,
sendToPostfix still returns no error - a protocol step failed yet no error
is reported, because the message was already delivered. -/
theorem C10_counterexample :
    filter.sendToPostfix envQuitFail "s@x.com" ["r@y.com"] mm0 = none ∧
    envQuitFail.quitOk = false := by
  refine ⟨by decide, rfl⟩

/-- An environment accepting exactly one specific recipient. -/
def envPicky : filter.SmtpEnv :=
  { filter.okEnv with rcptOk := fun r => r == "good@y.com" }

/-- Witness for claim C10: one rejected recipient out of two is skipped and
the message is delivered; with every recipient rejected the dedicated
error is returned. -/
theorem C10_witness :
    filter.sendToPostfix envPicky "s@x.com" ["bad@y.com", "good@y.com"] mm0 = none ∧
    envPicky.rcptOk "bad@y.com" = false ∧
    filter.sendToPostfix envPicky "s@x.com" ["bad@y.com"] mm0 =
      some "all recipients were rejected" := by
  refine ⟨?_, by decide, ?_⟩
  · exact (C10_sendToPostfix_error_iff envPicky "s@x.com" ["bad@y.com", "good@y.com"] mm0).1.mpr
      ⟨rfl, rfl, rfl, rfl, by decide, rfl, rfl, rfl⟩
  · exact (C10_sendToPostfix_error_iff envPicky "s@x.com" ["bad@y.com"] mm0).2 rfl rfl rfl rfl
      (by decide)
